import Mathlib

/-!
Verification of the engine.io-parser codec (`lib/browser.js`, protocol 3).

JavaScript strings are modelled as `List Char`; the pluggable utf8
collaborator is an explicit function parameter; functions that can raise a
JavaScript exception are modelled in `Except Unit`; JavaScript's `Number`
coercion on strings is modelled exactly over `ℚ` (no float64 rounding, which
is irrelevant at the small magnitudes framing can produce).
-/

/-- Packet data is either a text string or a binary chunk (the repository's
binary chunks are `Uint8Array`s, modelled as their byte lists). -/
inductive PData
  | text (s : List Char)
  | bin (bytes : List Nat)
deriving DecidableEq, Repr

/-- A decoded/encoded packet object: `type` is a JS string or `undefined`
(`none`), `data` is optional. Mirrors the plain objects of `browser.js`. -/
structure Packet where
  type : Option (List Char)
  data : Option PData
deriving DecidableEq, Repr

/-- The premade error packet of browser.js line 37:
`{ type: "error", data: "parser error" }`. -/
def err : Packet :=
  { type := some "error".toList, data := some (.text "parser error".toList) }

/-- The `packets` table of browser.js lines 21-29, as an association list from
type name to one-digit numeric code. -/
def packetsAssoc : List (List Char × Nat) :=
  [("open".toList, 0), ("close".toList, 1), ("ping".toList, 2),
   ("pong".toList, 3), ("message".toList, 4), ("upgrade".toList, 5),
   ("noop".toList, 6)]

/-- `packetslist = keys(packets)` (browser.js line 31). -/
def packetslist : List (List Char) := packetsAssoc.map Prod.fst

/-- `packets[packet.type]`: property lookup on the `packets` object; a
missing name (or an `undefined` key) yields `undefined` (`none`). -/
def packetsGet : Option (List Char) → Option Nat
  | none => none
  | some name => (packetsAssoc.find? (fun p => p.1 == name)).map Prod.snd

/-- Whitespace characters stripped by JS `Number` string coercion
(the ASCII ones plus NBSP; the other exotic code points never arise here). -/
def isJsWhitespace (c : Char) : Bool :=
  c = ' ' || c = '\t' || c = '\n' || c = '\r' || c = '\x0b' || c = '\x0c' ||
    c = '\xa0'

/-- Strip leading and trailing JS whitespace. -/
def trimWs (s : List Char) : List Char :=
  ((s.dropWhile isJsWhitespace).reverse.dropWhile isJsWhitespace).reverse

/-- Decimal digit string to natural number (the digits are validated by the
callers). -/
def digitsToNat (ds : List Char) : Nat :=
  ds.foldl (fun a c => a * 10 + (c.toNat - 48)) 0

/-- Hexadecimal digit value. -/
def hexDigitVal (c : Char) : Option Nat :=
  if c.isDigit then some (c.toNat - 48)
  else if 'a' ≤ c ∧ c ≤ 'f' then some (c.toNat - 87)
  else if 'A' ≤ c ∧ c ≤ 'F' then some (c.toNat - 55)
  else none

/-- Digit value in radix `r` (`r` is 2, 8 or 16 here). -/
def radixVal (r : Nat) (c : Char) : Option Nat :=
  match hexDigitVal c with
  | some v => if v < r then some v else none
  | none => none

/-- The result of JS `Number` coercion of a string: `NaN`, a finite value, or
a signed infinity. -/
inductive JsNum
  | nan
  | val (q : ℚ)
  | inf (neg : Bool)
deriving DecidableEq, Repr

/-- A `0x`/`0o`/`0b` numeric literal body: all digits of the radix, at least
one, else `NaN`. All rationals in this development are built with the core
`mkRat` so that every value is kernel-computable. -/
def parseRadix (r : Nat) (ds : List Char) : JsNum :=
  if ds ≠ [] ∧ ds.all (fun c : Char => (radixVal r c).isSome) then
    .val (mkRat (Int.ofNat (ds.foldl (fun a c => a * r + (radixVal r c).getD 0) 0)) 1)
  else .nan

/-- Split one optional leading sign; returns (isNegative, rest). -/
def splitSign : List Char → Bool × List Char
  | '+' :: t => (false, t)
  | '-' :: t => (true, t)
  | s => (false, s)

/-- An unsigned decimal literal `digits [. digits] [(e|E) sign? digits]` with
at least one digit in the integer or fraction part; the result is the exact
value as an unnormalized fraction (numerator, denominator); `none` means
`NaN`. -/
def parseDecCore (s : List Char) : Option (Int × Nat) :=
  let (ip, r1) := s.span (fun c : Char => c.isDigit)
  let (fp, r2) :=
    match r1 with
    | '.' :: t => t.span (fun c : Char => c.isDigit)
    | _ => ([], r1)
  if ip = [] ∧ fp = [] then none
  else
    let mant : Int := Int.ofNat (digitsToNat ip * 10 ^ fp.length + digitsToNat fp)
    let den : Nat := 10 ^ fp.length
    match r2 with
    | [] => some (mant, den)
    | c :: t =>
      if c = 'e' ∨ c = 'E' then
        let (eneg, t2) := splitSign t
        let (ed, t3) := t2.span (fun c : Char => c.isDigit)
        if ed = [] ∨ t3 ≠ [] then none
        else if eneg then some (mant, den * 10 ^ digitsToNat ed)
        else some (mant * Int.ofNat (10 ^ digitsToNat ed), den)
      else none

/-- A signed decimal literal or `Infinity`. -/
def parseSignedPart (s : List Char) : JsNum :=
  let (neg, r) := splitSign s
  if r = "Infinity".toList then .inf neg
  else
    match parseDecCore r with
    | some (n, d) => .val (mkRat (if neg then -n else n) d)
    | none => .nan

/-- JS `Number(string)`: trim whitespace, empty string is `0`, then a radix
literal (`0x`/`0o`/`0b`) or a signed decimal literal / `Infinity`. -/
def jsNumber (s : List Char) : JsNum :=
  match trimWs s with
  | [] => .val (mkRat 0 1)
  | '0' :: c :: rest =>
    if c = 'x' ∨ c = 'X' then parseRadix 16 rest
    else if c = 'o' ∨ c = 'O' then parseRadix 8 rest
    else if c = 'b' ∨ c = 'B' then parseRadix 2 rest
    else parseSignedPart ('0' :: c :: rest)
  | t => parseSignedPart t

/-- JS `==`/`===` between two numbers: `NaN` equals nothing (itself
included); otherwise value equality. -/
def jsNumEq : JsNum → JsNum → Bool
  | .val a, .val b => decide (a = b)
  | .inf a, .inf b => a == b
  | _, _ => false

/-- `s.charAt(i)` — a one-character string, or the empty string when out of
range. -/
def jsCharAt (s : List Char) (i : Nat) : List Char :=
  match s.get? i with
  | some c => [c]
  | none => []

/-- JS array lookup with a string property key (`packetslist[type]` on
browser.js line 107): only the canonical decimal form of an index hits an
element; anything else reads an absent property (`undefined`). -/
def canonicalIndex (s : List Char) : Option Nat :=
  if s ≠ [] ∧ s.all (fun c => c.isDigit) ∧ (s = ['0'] ∨ s.head? ≠ some '0') then
    some (digitsToNat s)
  else none

/-- `packetslist[type]` for a string key `type`. -/
def packetslistGetStr (s : List Char) : Option (List Char) :=
  match canonicalIndex s with
  | some i => packetslist.get? i
  | none => none

/-- `String(packet.data)`: a text string is itself; a binary chunk is a
`Uint8Array`, whose `toString` is the comma-joined decimal bytes. -/
def commaJoin : List (List Char) → List Char
  | [] => []
  | [x] => x
  | x :: y :: rest => x ++ ',' :: commaJoin (y :: rest)

/-- Stringification of packet data (see `commaJoin`). -/
def jsStringOfData : PData → List Char
  | .text s => s
  | .bin bs => commaJoin (bs.map (fun b => (toString b).toList))

/-- `"" + encoded` / `encoded += ...` where `encoded = packets[packet.type]`:
a number prints in decimal, an absent entry prints as `undefined`. -/
def jsStringOfUndefOrNum : Option Nat → List Char
  | none => "undefined".toList
  | some n => (toString n).toList

/-- browser.js `encodePacket` (lines 55-80). After the optional-argument
shuffling, the function *ignores* `supportsBinary` entirely: the binary
helpers announced by the comment block at lines 82-84 are absent from this
file (the local `data = packet.data.buffer || packet.data` at lines 66-67 is
dead), so every packet — binary data included — is delivered to the callback
as the string `packets[packet.type] + String(packet.data)`. `uenc` is the
pluggable `utf8.encode` collaborator, used only when `utf8encode` is set.
The value returned is the one passed to the callback. -/
def encodePacket (uenc : List Char → List Char) (packet : Packet)
    (supportsBinary utf8encode : Bool) : List Char :=
  jsStringOfUndefOrNum (packetsGet packet.type) ++
    match packet.data with
    | none => []
    | some d => if utf8encode then uenc (jsStringOfData d) else jsStringOfData d

/-- The wire value handed to `decodePacket`: `undefined`, a string, or a
binary buffer. -/
inductive DecodeInput
  | undef
  | str (s : List Char)
  | buf (bytes : List Nat)
deriving DecidableEq, Repr

/-- browser.js `tryDecode` (lines 124-131): run the pluggable `utf8.decode`
(which may throw, hence its `Except` type) and catch any exception into the
value `false` (modelled `none`). -/
def tryDecode (udec : List Char → Except Unit (List Char)) (data : List Char) :
    Option (List Char) :=
  match udec data with
  | .ok d => some d
  | .error _ => none

/-- browser.js `decodePacket` (lines 93-122), in `Except` to record that a JS
function may in principle raise. The `binaryType` parameter of the source is
never read in the body and is omitted. On a string, `Number(type) != type`
(loose equality between the number `Number(type)` and the string `type`)
coerces the right side with `Number` again, so it holds exactly when
`Number(type)` is `NaN`; `!packetslist[type]` holds exactly when the array
lookup misses, every stored name being a nonempty (truthy) string. On a
buffer, `asArray[0]` of an empty buffer is `undefined` and
`packetslist[undefined]` is `undefined`. -/
def decodePacketE (udec : List Char → Except Unit (List Char))
    (input : DecodeInput) (utf8decode : Bool) : Except Unit Packet :=
  match input with
  | .undef => .ok err
  | .str s =>
    match (if utf8decode then tryDecode udec s else some s) with
    | none => .ok err
    | some data =>
      if ¬ jsNumEq (jsNumber (jsCharAt data 0)) (jsNumber (jsCharAt data 0)) ∨
          (packetslistGetStr (jsCharAt data 0)).isNone then .ok err
      else if data.length > 1 then
        .ok { type := packetslistGetStr (jsCharAt data 0),
              data := some (.text (data.drop 1)) }
      else
        .ok { type := packetslistGetStr (jsCharAt data 0), data := none }
  | .buf bytes =>
    .ok { type :=
            match bytes.get? 0 with
            | some b => packetslist.get? b
            | none => none,
          data := some (.bin (bytes.drop 1)) }

/-- `hasBinary(packets)` collaborator: does any packet in the sequence carry
a binary chunk? -/
def hasBinary (ps : List Packet) : Bool :=
  ps.any (fun p =>
    match p.data with
    | some (.bin _) => true
    | _ => false)

/-- browser.js `setLengthHeader` (lines 161-163):
`message.length + ":" + message`. -/
def setLengthHeader (message : List Char) : List Char :=
  (toString message.length).toList ++ ':' :: message

/-- browser.js `encodePayload` (lines 149-179). The `map`/`after` helper
applies a synchronous `encodeOne` to each packet and collects the results in
input order, so it is `List.map`; the results are joined and passed to the
callback, whose argument is the value returned here. An empty sequence short-
circuits to `"0:"`. Each packet is encoded with
`!isBinary ? false : supportsBinary` and `utf8encode = false`. -/
def encodePayload (uenc : List Char → List Char) (ps : List Packet)
    (supportsBinary : Bool) : List Char :=
  if ps.length = 0 then "0:".toList
  else
    (ps.map (fun p =>
      setLengthHeader
        (encodePacket uenc p
          (if hasBinary ps then supportsBinary else false) false))).flatten

/-- The value a `decodePayload` per-packet callback returns: the exact
boolean `false` (which stops the scan), or anything else. -/
inductive JsRet
  | jsFalse
  | other
deriving DecidableEq, Repr

/-- `data.substr(i + 1, n)` of the payload scanner, as the slice of what
remains after the colon: `n` is truncated toward zero, clamped at 0 below
and at the available length above. -/
def frameMsg (data : List Char) (i : Nat) (len : List Char) : List Char :=
  (data.drop (i + 1)).take
    (match jsNumber len with
     | .nan => 0
     | .inf neg => if neg then 0 else data.length - (i + 1)
     | .val q =>
       -- `q.den` is positive, so `q.num < 0` is `q < 0`; for `q ≥ 0`
       -- truncation toward zero is `q.num / q.den`
       if q.num < 0 then 0 else min (q.num / (q.den : Int)).toNat (data.length - (i + 1)))

/-- The scanning loop of browser.js `decodePayload` (lines 225-265), with the
callback's invocations recorded in order as `(packet, i + n, l)` triples.
`fuel` is a structural-recursion bound: every iteration advances `i` by at
least one, and the initial fuel `data.length + 1` covers every iteration
including the final `i ≥ l` exit, so the `fuel = 0` branch is unreachable
from `decodePayloadE`. At the points marked below, the loose check
`length != msg.length` has already forced `n = Number(length)` to be exactly
the natural number `(frameMsg data i len).length`, so the source's numeric
`i + n` / `i += n` appear as that sum. -/
def payloadLoop (udec : List Char → Except Unit (List Char))
    (cb : Packet → Nat → Nat → JsRet) (data : List Char) :
    Nat → Nat → List Char → Except Unit (List (Packet × Nat × Nat))
  | 0, _, _ => .ok []
  | fuel + 1, i, len =>
    if i < data.length then
      if jsCharAt data i ≠ [':'] then
        payloadLoop udec cb data fuel (i + 1) (len ++ jsCharAt data i)
      else if len = [] ∨ ¬ jsNumEq (jsNumber len) (jsNumber len) then
        .ok [(err, 0, 1)]
      else if ¬ jsNumEq (jsNumber len) (.val (mkRat (Int.ofNat (frameMsg data i len).length) 1)) then
        .ok [(err, 0, 1)]
      else if (frameMsg data i len).length ≠ 0 then
        match decodePacketE udec (.str (frameMsg data i len)) false with
        | .error e => .error e
        | .ok packet =>
          if err.type = packet.type ∧ err.data = packet.data then
            .ok [(err, 0, 1)]
          else
            match cb packet (i + (frameMsg data i len).length) data.length with
            | .jsFalse => .ok [(packet, i + (frameMsg data i len).length, data.length)]
            | .other =>
              match payloadLoop udec cb data fuel
                  (i + (frameMsg data i len).length + 1) [] with
              | .error e => .error e
              | .ok t =>
                .ok ((packet, i + (frameMsg data i len).length, data.length) :: t)
      else payloadLoop udec cb data fuel (i + (frameMsg data i len).length + 1) []
    else
      if len ≠ [] then .ok [(err, 0, 1)] else .ok []

/-- browser.js `decodePayload` (lines 209-265). `""` is a parser error
delivered as `callback(err, 0, 1)`. An absent (`undefined`) `data` passes the
`data === ""` test (it is not `""`), and the loop header then reads
`data.length`, raising a `TypeError` — hence `.error ()`. The source's
`binaryType` parameter is forwarded to a `decodePacket` that never reads it,
and is omitted. -/
def decodePayloadE (udec : List Char → Except Unit (List Char))
    (data : Option (List Char)) (cb : Packet → Nat → Nat → JsRet) :
    Except Unit (List (Packet × Nat × Nat)) :=
  match data with
  | none => .error ()
  | some s =>
    if s = [] then .ok [(err, 0, 1)]
    else payloadLoop udec cb s (s.length + 1) 0 []

/-- Decidable equality on `Except`, so concrete codec runs can be settled by
`decide`. -/
instance exceptDecEq {ε α : Type} [DecidableEq ε] [DecidableEq α] :
    DecidableEq (Except ε α)
  | .ok a, .ok b =>
    if h : a = b then .isTrue (by rw [h]) else .isFalse (by simp [h])
  | .ok _, .error _ => .isFalse (by simp)
  | .error _, .ok _ => .isFalse (by simp)
  | .error a, .error b =>
    if h : a = b then .isTrue (by rw [h]) else .isFalse (by simp [h])

/-- A utf8 decoder that never throws; the claims below that do not exercise
the utf8 path use it as the concrete collaborator. -/
def idDec : List Char → Except Unit (List Char) := fun s => .ok s

/-- A utf8 encoder used where the encoder is irrelevant. -/
def idEnc : List Char → List Char := fun s => s

/-- A per-packet callback that never requests early exit. -/
def cbOther : Packet → Nat → Nat → JsRet := fun _ _ _ => .other

/-- A per-packet callback that always returns the boolean `false`. -/
def cbFalse : Packet → Nat → Nat → JsRet := fun _ _ _ => .jsFalse

example : jsNumber "1e1".toList = .val (mkRat 10 1) := by decide
example : jsNumber "+2".toList = .val (mkRat 2 1) := by decide
example : jsNumber "0x4".toList = .val (mkRat 4 1) := by decide
example : jsNumber "12".toList = .val (mkRat 12 1) := by decide
example : jsNumber "1a".toList = .nan := by decide
example : jsNumber [] = .val (mkRat 0 1) := by decide
example : jsNumber "2.5".toList = .val (mkRat 5 2) := by decide
example : jsNumber "-2".toList = .val (mkRat (-2) 1) := by decide
example : jsNumber " 2 ".toList = .val (mkRat 2 1) := by decide
example : jsNumber "Infinity".toList = .inf false := by decide
example : decodePacketE idDec (.str "4hello".toList) false =
    .ok { type := some "message".toList, data := some (.text "hello".toList) } := by decide
example : decodePayloadE idDec (some "0:".toList) cbOther = .ok [] := by decide

example : encodePayload idEnc
    [{ type := some "message".toList, data := some (.text "hello world".toList) },
     { type := some "message".toList, data := some (.text "hi".toList) }] false =
    "12:4hello world3:4hi".toList := by decide
example : decodePayloadE idDec (some "12:4hello world3:4hi".toList) cbOther =
    .ok [({ type := some "message".toList, data := some (.text "hello world".toList) }, 14, 20),
         ({ type := some "message".toList, data := some (.text "hi".toList) }, 19, 20)] := by decide
example : decodePayloadE idDec (some "11:4hello world2:4hi".toList) cbOther =
    .ok [({ type := some "message".toList, data := some (.text "hello worl".toList) }, 13, 20),
         (err, 0, 1)] := by decide
example : decodePayloadE idDec (some "3:4ab".toList) cbOther =
    .ok [({ type := some "message".toList, data := some (.text "ab".toList) }, 4, 5)] := by decide
example : decodePayloadE idDec (some "4:4ab".toList) cbOther = .ok [(err, 0, 1)] := by decide
example : decodePayloadE idDec (some "1e1:4abcdefghi".toList) cbOther =
    .ok [({ type := some "message".toList, data := some (.text "abcdefghi".toList) }, 13, 14)] := by decide
example : decodePayloadE idDec (some "3:4ab3:4cd".toList) cbFalse =
    .ok [({ type := some "message".toList, data := some (.text "ab".toList) }, 4, 10)] := by decide
example : decodePayloadE idDec (some "x:".toList) cbOther = .ok [(err, 0, 1)] := by decide
example : decodePayloadE idDec (some "".toList) cbOther = .ok [(err, 0, 1)] := by decide
example : decodePacketE idDec .undef false = .ok err := by decide
example : decodePacketE idDec (.str "".toList) false = .ok err := by decide
example : decodePacketE idDec (.str "9hello".toList) false = .ok err := by decide
example : decodePacketE idDec (.str "astring".toList) false = .ok err := by decide
example : encodePacket idEnc
    { type := some "message".toList, data := some (.bin [1, 2, 3]) } true false =
    "41,2,3".toList := by decide
example : decodePacketE idDec
    (.str (encodePacket idEnc { type := some "message".toList, data := some (.text []) } false false))
    false = .ok { type := some "message".toList, data := none } := by decide
example : decodePayloadE idDec (some "2:4a0:2:4b".toList) cbOther =
    .ok [({ type := some "message".toList, data := some (.text "a".toList) }, 3, 10),
         ({ type := some "message".toList, data := some (.text "b".toList) }, 9, 10)] := by decide

/-- The names stored in `packetslist`, literally. -/
theorem packetslist_eq :
    packetslist = ["open".toList, "close".toList, "ping".toList, "pong".toList,
      "message".toList, "upgrade".toList, "noop".toList] := rfl

/-- No entry of the type table is the name `"error"`. -/
theorem packetslist_mem_ne_error {nm : List Char} (hm : nm ∈ packetslist) :
    nm ≠ "error".toList := by
  rw [packetslist_eq] at hm
  fin_cases hm <;> decide

/-- Whatever index is read, `packetslist` never yields the name `"error"`. -/
theorem packetslist_get_ne_error {i : Nat} {nm : List Char}
    (h : packetslist.get? i = some nm) : nm ≠ "error".toList :=
  packetslist_mem_ne_error (List.get?_mem h)

/-- String-keyed lookups on `packetslist` never yield the name `"error"`. -/
theorem packetslistGetStr_ne_error {s nm : List Char}
    (h : packetslistGetStr s = some nm) : nm ≠ "error".toList := by
  unfold packetslistGetStr at h
  cases h0 : canonicalIndex s with
  | none => rw [h0] at h; cases h
  | some i => rw [h0] at h; exact packetslist_get_ne_error h

/-- `jsNumEq n n` fails exactly for `NaN`. -/
theorem jsNumEq_self_eq_false {n : JsNum} : jsNumEq n n = false ↔ n = .nan := by
  cases n <;> simp [jsNumEq]

/-- A list that is `pre ++ e :: post` and also a singleton has empty
`post`. -/
theorem append_cons_eq_singleton {α : Type} {pre post : List α} {e x : α}
    (h : pre ++ e :: post = [x]) : post = [] := by
  have hl := congrArg List.length h
  simp [List.length_append] at hl
  exact List.length_eq_zero.mp (by omega)

/-- `decodePacket` never raises: every branch — including a throwing utf8
decoder, which `tryDecode` catches — delivers a packet value. -/
theorem decodePacketE_ok (udec : List Char → Except Unit (List Char))
    (input : DecodeInput) (flag : Bool) :
    ∃ p, decodePacketE udec input flag = .ok p := by
  cases input with
  | undef => exact ⟨err, rfl⟩
  | str s =>
    simp only [decodePacketE]
    split
    · exact ⟨err, rfl⟩
    · split
      · exact ⟨_, rfl⟩
      · split
        · exact ⟨_, rfl⟩
        · exact ⟨_, rfl⟩
  | buf bytes => exact ⟨_, rfl⟩

/-- The payload scanning loop never raises, whatever the fuel. -/
theorem payloadLoop_ok (udec : List Char → Except Unit (List Char))
    (cb : Packet → Nat → Nat → JsRet) (data : List Char) :
    ∀ fuel i len, ∃ t, payloadLoop udec cb data fuel i len = .ok t := by
  intro fuel
  induction fuel with
  | zero => exact fun i len => ⟨[], rfl⟩
  | succ n ih =>
    intro i len
    simp only [payloadLoop]
    split
    · split
      · exact ih _ _
      · split
        · exact ⟨_, rfl⟩
        · split
          · exact ⟨_, rfl⟩
          · split
            · split
              next e heq =>
                obtain ⟨p, hp⟩ := decodePacketE_ok udec (.str (frameMsg data i len)) false
                rw [hp] at heq
                cases heq
              next packet heq =>
                split
                · exact ⟨_, rfl⟩
                · split
                  next hcb => exact ⟨_, rfl⟩
                  next hcb =>
                    split
                    next e heq2 =>
                      obtain ⟨t, ht⟩ := ih (i + (frameMsg data i len).length + 1) []
                      rw [ht] at heq2
                      cases heq2
                    next t heq2 => exact ⟨_, rfl⟩
            · exact ih _ _
    · split
      · exact ⟨_, rfl⟩
      · exact ⟨_, rfl⟩

/-- Once an invocation of `cb` recorded in the trace returns the boolean
`false`, it is the last invocation of the scan. -/
theorem payloadLoop_stop (udec : List Char → Except Unit (List Char))
    (cb : Packet → Nat → Nat → JsRet) (data : List Char) :
    ∀ (fuel i : Nat) (len : List Char) (pre : List (Packet × Nat × Nat))
      (e : Packet × Nat × Nat) (post : List (Packet × Nat × Nat)),
      payloadLoop udec cb data fuel i len = .ok (pre ++ e :: post) →
      cb e.1 e.2.1 e.2.2 = .jsFalse → post = [] := by
  intro fuel
  induction fuel with
  | zero =>
    intro i len pre e post h hcb
    simp only [payloadLoop] at h
    injection h with h
    exact absurd h.symm (by simp)
  | succ n ih =>
    intro i len pre e post h hcb
    simp only [payloadLoop] at h
    split at h
    · split at h
      · exact ih _ _ _ _ _ h hcb
      · split at h
        · injection h with h
          exact append_cons_eq_singleton h.symm
        · split at h
          · injection h with h
            exact append_cons_eq_singleton h.symm
          · split at h
            · split at h
              next e2 heq => cases h
              next packet heq =>
                split at h
                · injection h with h
                  exact append_cons_eq_singleton h.symm
                · split at h
                  next hcb2 =>
                    injection h with h
                    exact append_cons_eq_singleton h.symm
                  next hcb2 =>
                    split at h
                    next e3 heq2 => cases h
                    next t heq2 =>
                      injection h with h
                      cases pre with
                      | nil =>
                        rw [List.nil_append] at h
                        injection h with h1 h2
                        subst h1
                        exact absurd (hcb.symm.trans hcb2) (by simp)
                      | cons a pre2 =>
                        injection h with h1 h2
                        exact ih _ _ pre2 e post (h2 ▸ heq2) hcb
            · exact ih _ _ _ _ _ h hcb
    · split at h
      · injection h with h
        exact append_cons_eq_singleton h.symm
      · injection h with h
        exact absurd h.symm (by simp)

/-- If from position `i` the stream continues with a colon-free prefix `p`
followed by a colon, and the accumulator extended by `p` is empty or coerces
to `NaN`, the scan aborts with exactly the single invocation
`callback(err, 0, 1)`. -/
theorem payloadLoop_badLen (udec : List Char → Except Unit (List Char))
    (cb : Packet → Nat → Nat → JsRet) (data rest : List Char) :
    ∀ (p : List Char) (i : Nat) (acc : List Char) (fuel : Nat),
      data.drop i = p ++ ':' :: rest → ':' ∉ p → p.length + 1 ≤ fuel →
      (acc ++ p = [] ∨ jsNumber (acc ++ p) = .nan) →
      payloadLoop udec cb data fuel i acc = .ok [(err, 0, 1)] := by
  intro p
  induction p with
  | nil =>
    intro i acc fuel h1 _ h3 h4
    cases fuel with
    | zero => omega
    | succ n =>
      have hi : i < data.length := by
        by_contra hge
        rw [List.drop_eq_nil_of_le (le_of_not_lt hge)] at h1
        exact List.noConfusion h1
      have hget : data.get? i = some ':' := by
        have h0 : (data.drop i).get? 0 = some ':' := by rw [h1]; rfl
        rwa [List.get?_drop, Nat.add_zero] at h0
      have hchar : jsCharAt data i = [':'] := by
        unfold jsCharAt
        rw [hget]
      simp only [payloadLoop, if_pos hi, hchar]
      rw [if_neg (by simp)]
      rw [if_pos ?cond]
      case cond =>
        rw [List.append_nil] at h4
        rcases h4 with h4 | h4
        · exact Or.inl h4
        · refine Or.inr ?_
          rw [h4]
          simp [jsNumEq]
  | cons c p2 ih =>
    intro i acc fuel h1 h2 h3 h4
    cases fuel with
    | zero => omega
    | succ n =>
      have hi : i < data.length := by
        by_contra hge
        rw [List.drop_eq_nil_of_le (le_of_not_lt hge)] at h1
        exact List.noConfusion h1
      have hget : data.get? i = some c := by
        have h0 : (data.drop i).get? 0 = some c := by rw [h1]; rfl
        rwa [List.get?_drop, Nat.add_zero] at h0
      have hchar : jsCharAt data i = [c] := by
        unfold jsCharAt
        rw [hget]
      have hcne : c ≠ ':' := fun hc => h2 (hc ▸ List.mem_cons_self c p2)
      simp only [payloadLoop, if_pos hi, hchar]
      rw [if_pos (by simp [hcne])]
      refine ih (i + 1) (acc ++ [c]) n ?_ (fun hm => h2 (List.mem_cons_of_mem c hm))
        (by simp only [List.length_cons] at h3; omega) ?_
      · rw [← List.tail_drop, h1]
        rfl
      · rw [List.append_assoc]
        simpa using h4

/-- `decodePacket` on a nonempty string without utf8 decoding: validate the
first character, then keep the remainder (if any) verbatim as `data`. -/
theorem decodePacketE_str_cons (udec : List Char → Except Unit (List Char))
    (c : Char) (d : List Char) :
    decodePacketE udec (.str (c :: d)) false =
      if ¬ jsNumEq (jsNumber [c]) (jsNumber [c]) ∨ (packetslistGetStr [c]).isNone then
        .ok err
      else if d = [] then .ok { type := packetslistGetStr [c], data := none }
      else .ok { type := packetslistGetStr [c], data := some (.text d) } := by
  have h0 : decodePacketE udec (.str (c :: d)) false =
      (if ¬ jsNumEq (jsNumber [c]) (jsNumber [c]) ∨ (packetslistGetStr [c]).isNone then
        .ok err
      else if (c :: d).length > 1 then
        .ok { type := packetslistGetStr [c], data := some (.text d) }
      else .ok { type := packetslistGetStr [c], data := none }) := rfl
  rw [h0]
  by_cases hc : ¬ jsNumEq (jsNumber [c]) (jsNumber [c]) ∨ (packetslistGetStr [c]).isNone
  · rw [if_pos hc, if_pos hc]
  · rw [if_neg hc, if_neg hc]
    cases d with
    | nil => rw [if_neg (by simp), if_pos rfl]
    | cons x t => rw [if_pos (by simp), if_neg (by simp)]

/-- Roundtrip skeleton for one concrete type name whose text encoding starts
with the digit `c`. -/
theorem roundtripCase (uenc : List Char → List Char)
    (udec : List Char → Except Unit (List Char)) (tn : List Char) (c : Char)
    (henc : ∀ d : List Char,
      encodePacket uenc { type := some tn, data := some (.text d) } false false = c :: d)
    (hvalid : ¬ (¬ jsNumEq (jsNumber [c]) (jsNumber [c]) ∨ (packetslistGetStr [c]).isNone))
    (hname : packetslistGetStr [c] = some tn) :
    (∀ d : List Char, d ≠ [] →
      decodePacketE udec
        (.str (encodePacket uenc { type := some tn, data := some (.text d) } false false))
        false = .ok { type := some tn, data := some (.text d) }) ∧
    decodePacketE udec
        (.str (encodePacket uenc { type := some tn, data := some (.text []) } false false))
        false = .ok { type := some tn, data := none } := by
  constructor
  · intro d hd
    rw [henc d, decodePacketE_str_cons, if_neg hvalid, if_neg hd, hname]
  · rw [henc [], decodePacketE_str_cons, if_neg hvalid, if_pos rfl, hname]

/-- C1 (amended): for every valid packet type and every *nonempty* text data
`d`, decoding the text-channel encoding of `{type, data: d}` returns
`{type, data: d}` byte-for-byte; for the empty string the encoded form is
just the type digit and decoding yields a packet with *no* data field. -/
theorem c1_text_roundtrip (uenc : List Char → List Char)
    (udec : List Char → Except Unit (List Char)) (tn : List Char)
    (h : tn ∈ packetslist) :
    (∀ d : List Char, d ≠ [] →
      decodePacketE udec
        (.str (encodePacket uenc { type := some tn, data := some (.text d) } false false))
        false = .ok { type := some tn, data := some (.text d) }) ∧
    decodePacketE udec
        (.str (encodePacket uenc { type := some tn, data := some (.text []) } false false))
        false = .ok { type := some tn, data := none } := by
  rw [packetslist_eq] at h
  fin_cases h
  · exact roundtripCase uenc udec _ '0' (fun d => rfl) (by decide) (by decide)
  · exact roundtripCase uenc udec _ '1' (fun d => rfl) (by decide) (by decide)
  · exact roundtripCase uenc udec _ '2' (fun d => rfl) (by decide) (by decide)
  · exact roundtripCase uenc udec _ '3' (fun d => rfl) (by decide) (by decide)
  · exact roundtripCase uenc udec _ '4' (fun d => rfl) (by decide) (by decide)
  · exact roundtripCase uenc udec _ '5' (fun d => rfl) (by decide) (by decide)
  · exact roundtripCase uenc udec _ '6' (fun d => rfl) (by decide) (by decide)

/-- C1 witness: the roundtrip theorem applied at type `message`, data
`"hi"`. -/
theorem c1_text_roundtrip_witness :
    decodePacketE idDec
      (.str (encodePacket idEnc { type := some "message".toList, data := some (.text "hi".toList) } false false))
      false = .ok { type := some "message".toList, data := some (.text "hi".toList) } :=
  (c1_text_roundtrip idEnc idDec "message".toList (by decide)).1 "hi".toList (by decide)

/-- C1 counterexample: for the empty data string the roundtrip does *not*
return `{type, data: ""}` — the decoded packet has no data field at all. -/
theorem c1_empty_data_cex :
    decodePacketE idDec
      (.str (encodePacket idEnc { type := some "message".toList, data := some (.text []) } false false))
      false = .ok { type := some "message".toList, data := none } ∧
    ({ type := some "message".toList, data := none } : Packet) ≠
      { type := some "message".toList, data := some (.text []) } := by decide

/-- C2: with `supportsBinary` declared `true` and binary data `[1,2,3]`, the
value delivered to the callback is the *string* `"41,2,3"` (the decimal type
code concatenated with the `Uint8Array`'s string coercion), not a binary
buffer — the binary encode path is absent from this source file. -/
theorem c2_binary_encode_delivers_string (uenc : List Char → List Char)
    (supportsBinary : Bool) :
    encodePacket uenc { type := some "message".toList, data := some (.bin [1, 2, 3]) }
      supportsBinary false = "41,2,3".toList := rfl

/-- C3 (amended): the two-message payload encodes to
`"12:4hello world3:4hi"` (frame lengths 12 and 3), and decoding that stream
invokes the callback exactly twice, in order, with the two original packets
(positions 14 and 19 of 20). -/
theorem c3_payload_roundtrip :
    (∀ (uenc : List Char → List Char) (sb : Bool),
      encodePayload uenc
        [{ type := some "message".toList, data := some (.text "hello world".toList) },
         { type := some "message".toList, data := some (.text "hi".toList) }] sb =
      "12:4hello world3:4hi".toList) ∧
    decodePayloadE idDec (some "12:4hello world3:4hi".toList) cbOther =
      .ok [({ type := some "message".toList, data := some (.text "hello world".toList) }, 14, 20),
           ({ type := some "message".toList, data := some (.text "hi".toList) }, 19, 20)] :=
  ⟨fun _ _ => by with_unfolding_all rfl, by decide⟩

/-- C3 counterexample: the produced stream is `"12:4hello world3:4hi"`, not
the claimed `"11:4hello world2:4hi"`. -/
theorem c3_claimed_stream_cex :
    encodePayload idEnc
      [{ type := some "message".toList, data := some (.text "hello world".toList) },
       { type := some "message".toList, data := some (.text "hi".toList) }] false =
      "12:4hello world3:4hi".toList ∧
    "12:4hello world3:4hi".toList ≠ "11:4hello world2:4hi".toList := by decide

/-- C4 (amended): `decodePacket` never raises for any input (undefined,
string or buffer, and even when the pluggable utf8 decoder throws), and
`decodePayload` never raises for any *string* input; an absent (undefined)
payload, however, is outside the guarantee (see the counterexample). -/
theorem c4_no_throw :
    (∀ (udec : List Char → Except Unit (List Char)) (input : DecodeInput) (flag : Bool),
      ∃ p, decodePacketE udec input flag = .ok p) ∧
    (∀ (udec : List Char → Except Unit (List Char)) (s : List Char)
      (cb : Packet → Nat → Nat → JsRet),
      ∃ t, decodePayloadE udec (some s) cb = .ok t) := by
  refine ⟨decodePacketE_ok, fun udec s cb => ?_⟩
  simp only [decodePayloadE]
  split
  · exact ⟨_, rfl⟩
  · exact payloadLoop_ok udec cb s _ 0 []

/-- C4 counterexample: `decodePayload(undefined, cb)` raises a `TypeError`
(reading `.length` of undefined) instead of reporting through the
callback. -/
theorem c4_payload_undefined_throws :
    decodePayloadE idDec none cbOther = .error () := rfl

/-- C5: `decodePacket` returns the error sentinel for undefined input, the
empty string, an out-of-range leading digit, and a non-numeric leading
character — and in each case returns rather than raising. -/
theorem c5_decode_packet_errors (udec : List Char → Except Unit (List Char)) :
    decodePacketE udec .undef false = .ok err ∧
    decodePacketE udec (.str "".toList) false = .ok err ∧
    decodePacketE udec (.str "9hello".toList) false = .ok err ∧
    decodePacketE udec (.str "astring".toList) false = .ok err :=
  ⟨rfl, rfl, rfl, rfl⟩

/-- C6 (amended): at a `:` delimiter the decode aborts with the single
invocation `callback(err, 0, 1)` exactly when the accumulated prefix is
empty or its JS `Number` coercion is `NaN`; prefixes such as `"1e1"`,
`"+2"`, `"0x4"` coerce to numbers and are accepted as frame lengths. This
theorem is the abort direction; the counterexample shows acceptance. -/
theorem c6_bad_length_aborts (udec : List Char → Except Unit (List Char))
    (cb : Packet → Nat → Nat → JsRet) (p rest : List Char)
    (hc : ':' ∉ p) (hbad : p = [] ∨ jsNumber p = .nan) :
    decodePayloadE udec (some (p ++ ':' :: rest)) cb = .ok [(err, 0, 1)] := by
  simp only [decodePayloadE]
  rw [if_neg (by simp)]
  exact payloadLoop_badLen udec cb (p ++ ':' :: rest) rest p 0 []
    ((p ++ ':' :: rest).length + 1) (by simp) hc
    (by simp only [List.length_append, List.length_cons]; omega) (by simpa using hbad)

/-- C6 witness: the abort theorem applied to the stream `"x:"`. -/
theorem c6_bad_length_aborts_witness :
    decodePayloadE idDec (some "x:".toList) cbOther = .ok [(err, 0, 1)] :=
  c6_bad_length_aborts idDec cbOther "x".toList [] (by decide) (Or.inr (by decide))

/-- C6 counterexample: the prefix `"1e1"` is not the decimal notation of an
integer, yet the decode does not abort — `Number("1e1") = 10` is accepted as
the frame length and the frame is delivered. -/
theorem c6_coerced_length_cex :
    decodePayloadE idDec (some "1e1:4abcdefghi".toList) cbOther =
      .ok [({ type := some "message".toList, data := some (.text "abcdefghi".toList) }, 13, 14)] ∧
    (Except.ok [({ type := some "message".toList, data := some (.text "abcdefghi".toList) }, 13, 14)] :
        Except Unit (List (Packet × Nat × Nat))) ≠
      .ok [(err, 0, 1)] := by decide

/-- C7 (amended): `"3:4ab"` is an exactly-consumed stream, not a truncated
one — the frame content `"4ab"` has precisely the declared 3 characters, so
the callback is invoked once with `{message, "ab"}` and no error; a genuinely
truncated stream such as `"4:4ab"` aborts with the single error callback. -/
theorem c7_truncation_behavior :
    decodePayloadE idDec (some "3:4ab".toList) cbOther =
      .ok [({ type := some "message".toList, data := some (.text "ab".toList) }, 4, 5)] ∧
    decodePayloadE idDec (some "4:4ab".toList) cbOther = .ok [(err, 0, 1)] := by decide

/-- C7 counterexample: decoding `"3:4ab"` delivers a packet callback with
`{message, "ab"}` — not a single error-sentinel callback. -/
theorem c7_exact_length_cex :
    decodePayloadE idDec (some "3:4ab".toList) cbOther =
      .ok [({ type := some "message".toList, data := some (.text "ab".toList) }, 4, 5)] ∧
    ({ type := some "message".toList, data := some (.text "ab".toList) } : Packet) ≠ err := by decide

/-- C8: the empty packet sequence encodes to exactly `"0:"`, and decoding
`"0:"` invokes the callback zero times and terminates without error. -/
theorem c8_empty_payload (uenc : List Char → List Char) (sb : Bool)
    (udec : List Char → Except Unit (List Char)) (cb : Packet → Nat → Nat → JsRet) :
    encodePayload uenc [] sb = "0:".toList ∧
    decodePayloadE udec (some "0:".toList) cb = .ok [] :=
  ⟨rfl, rfl⟩

/-- C9: if any recorded callback invocation returns the boolean `false`, it
is the last invocation of the decode — no packet or error callback follows,
even when further valid frames remain. -/
theorem c9_false_halts (udec : List Char → Except Unit (List Char))
    (s : List Char) (cb : Packet → Nat → Nat → JsRet)
    (pre : List (Packet × Nat × Nat)) (e : Packet × Nat × Nat)
    (post : List (Packet × Nat × Nat))
    (h : decodePayloadE udec (some s) cb = .ok (pre ++ e :: post))
    (hcb : cb e.1 e.2.1 e.2.2 = .jsFalse) : post = [] := by
  simp only [decodePayloadE] at h
  split at h
  · injection h with h
    exact append_cons_eq_singleton h.symm
  · exact payloadLoop_stop udec cb s _ 0 [] pre e post h hcb

/-- C9 witness: a callback returning `false` on the first of two valid
frames of `"3:4ab3:4cd"` halts the scan after one invocation. -/
theorem c9_false_halts_witness :
    decodePayloadE idDec (some "3:4ab3:4cd".toList) cbFalse =
      .ok ([] ++ ({ type := some "message".toList, data := some (.text "ab".toList) }, 4, 10) :: []) ∧
    ([] : List (Packet × Nat × Nat)) = [] :=
  ⟨by decide,
   c9_false_halts idDec "3:4ab3:4cd".toList cbFalse []
     ({ type := some "message".toList, data := some (.text "ab".toList) }, 4, 10) []
     (by decide) (by decide)⟩

/-- C10: for every wire input, `decodePayload`'s structural comparison
against the sentinel (both `type` and `data` equal) holds exactly when the
decoded packet *is* the sentinel, and no decode result other than the
sentinel ever carries the type name `"error"` — the text path only produces
the seven table names and the binary path a table name or `undefined`. -/
theorem c10_sentinel_comparison (udec : List Char → Except Unit (List Char))
    (input : DecodeInput) (flag : Bool) (p : Packet)
    (h : decodePacketE udec input flag = .ok p) :
    ((err.type = p.type ∧ err.data = p.data) ↔ p = err) ∧
    (p.type = some ("error".toList) → p = err) := by
  constructor
  · constructor
    · rintro ⟨h1, h2⟩
      obtain ⟨pt, pd⟩ := p
      simp only [err, Packet.mk.injEq] at h1 h2 ⊢
      exact ⟨h1.symm, h2.symm⟩
    · rintro rfl
      exact ⟨rfl, rfl⟩
  · intro ht
    cases input with
    | undef =>
      simp only [decodePacketE] at h
      injection h with h
      exact h.symm
    | buf bytes =>
      simp only [decodePacketE] at h
      injection h with h
      subst h
      split at ht
      · exact absurd rfl (packetslist_get_ne_error ht)
      · cases ht
    | str s =>
      simp only [decodePacketE] at h
      split at h
      · injection h with h
        exact h.symm
      · split at h
        · injection h with h
          exact h.symm
        · split at h <;>
          · injection h with h
            subst h
            exact absurd rfl (packetslistGetStr_ne_error ht)

/-- C10 witness: the comparison theorem applied to the decode of the
well-formed frame `"4hi"`. -/
theorem c10_sentinel_comparison_witness :
    ((err.type = ({ type := some "message".toList, data := some (.text "hi".toList) } : Packet).type ∧
      err.data = ({ type := some "message".toList, data := some (.text "hi".toList) } : Packet).data) ↔
      ({ type := some "message".toList, data := some (.text "hi".toList) } : Packet) = err) ∧
    (({ type := some "message".toList, data := some (.text "hi".toList) } : Packet).type =
        some ("error".toList) →
      ({ type := some "message".toList, data := some (.text "hi".toList) } : Packet) = err) :=
  c10_sentinel_comparison idDec (.str "4hi".toList) false _ (by decide)
